import Mathlib

/-!
# Verification of the order-book analytics and transport layer

Shallow embedding of `src/services/calculator.js`, `src/hooks/useWebSocket.js`
and `services/websocket.js` (the `OrderBookWebSocketService` class, stored in
the repository concatenated into `src/src/App.css` after a document
separator, lines 697-1207 of that file).  The service class is the transport
connection manager proper: reconnect backoff with cap and jitter, the
send/queue contract, the subscription and heartbeat message shapes, and the
rolling latency window all live there; the `useWebSocket` hook is a second,
simpler transport used by `useOrderBook`.

Modelling conventions:
* JS numbers are modelled as rationals (`ℚ`); every numeric literal occurring
  in the programs is an exact decimal, so rational arithmetic agrees with the
  JS float arithmetic on all inputs used in the theorems below.
* A JS order-book object maps price strings to quantity strings; the code
  reads it with `Object.entries`/`Object.keys` and `parseFloat`.  We model a
  side as the resulting association list `List (ℚ × ℚ)` (price, quantity) in
  enumeration order, with `parseFloat` already applied; the JS guard
  `!isNaN(price) && price > 0` becomes `0 < price` (NaN has no rational
  representative, so the `isNaN` conjunct is vacuous in the model).
* A nullable book (`null`/`undefined`, or a book whose `Bids`/`Asks` field is
  missing) is `Option OrderBook` with `none` for the absent cases.
* JS divisions that can produce `NaN` or `Infinity` are modelled with
  `Option ℚ`, `none` standing for the non-finite result; each use site says
  which non-finite value `none` denotes there.
-/

/-- A price level: (price, quantity), both already parsed to numbers. -/
abbrev Level := ℚ × ℚ

/-- An order book as the calculator sees it (`Bids`, `Asks`, `Sources`,
`Exchange`).  Sides are association lists in JS object enumeration order. -/
structure OrderBook where
  bids : List Level
  asks : List Level
  sources : List String := []
  exchange : Option String := none
deriving Repr, DecidableEq

/-- Result shape of `getBestPrices`. -/
structure BestPrices where
  bestBid : ℚ
  bestAsk : ℚ
  spread : ℚ
  spreadPercent : ℚ
  midPrice : ℚ
deriving Repr, DecidableEq

/-- The bid prices of a book that survive the `parseFloat`/positivity filter,
sorted highest first, as computed in `getBestPrices`. -/
def bidPricesSorted (ob : OrderBook) : List ℚ :=
  List.insertionSort (· ≥ ·) ((ob.bids.map Prod.fst).filter (fun p => 0 < p))

/-- The ask prices of a book that survive the filter, sorted lowest first. -/
def askPricesSorted (ob : OrderBook) : List ℚ :=
  List.insertionSort (· ≤ ·) ((ob.asks.map Prod.fst).filter (fun p => 0 < p))

/-- `OrderBookCalculator.getBestPrices` (calculator.js:12-48).  `none` models
a null book or one with a missing `Bids`/`Asks` field. -/
def getBestPrices : Option OrderBook → BestPrices
  | none => ⟨0, 0, 0, 0, 0⟩
  | some ob =>
    let bidPrices := bidPricesSorted ob
    let askPrices := askPricesSorted ob
    let bestBid := bidPrices.headD 0
    let bestAsk := askPrices.headD 0
    let spread := bestAsk - bestBid
    let midPrice := if 0 < bestBid ∧ 0 < bestAsk then (bestBid + bestAsk) / 2 else 0
    let spreadPercent := if 0 < midPrice then spread / midPrice * 100 else 0
    ⟨bestBid, bestAsk, spread, spreadPercent, midPrice⟩

/-- Market-order side. -/
inductive Side where
  | buy
  | sell
deriving Repr, DecidableEq

/-- One entry of `filledOrders`: (price, fill quantity, fill cost). -/
structure Fill where
  price : ℚ
  quantity : ℚ
  cost : ℚ
deriving Repr, DecidableEq

/-- Result shape of `calculateVWAP`.  The early-return branches of the JS
function omit `totalCost`, `averagePrice` and `filledOrders` (they are
`undefined`); the model sets them to `0`/`[]` there, and no theorem below
reads them in those branches. -/
structure VWAPResult where
  vwap : ℚ
  totalVolume : ℚ
  remainingVolume : ℚ
  priceImpact : ℚ
  totalCost : ℚ
  filledOrders : List Fill
deriving Repr, DecidableEq

/-- The `for (const order of sortedOrders)` loop of `calculateVWAP`
(calculator.js:81-96): walk the sorted levels, filling `min(remaining, qty)`
at each, stopping once `remaining ≤ 0`.
Returns (remainingVolume, totalCost, totalFilled, filledOrders). -/
def fillLoop : List Level → ℚ → ℚ × ℚ × ℚ × List Fill
  | [], r => (r, 0, 0, [])
  | (p, q) :: rest, r =>
    if r ≤ 0 then (r, 0, 0, [])
    else
      let fq := min r q
      let fc := fq * p
      let out := fillLoop rest (r - fq)
      (out.1, out.2.1 + fc, out.2.2.1 + fq, ⟨p, fq, fc⟩ :: out.2.2.2)

/-- The side of the book a market order of `side` consumes. -/
def ordersOf (ob : OrderBook) : Side → List Level
  | .buy => ob.asks
  | .sell => ob.bids

/-- The consumed side after the positivity filter and the price sort
(ascending for asks / `buy`, descending for bids / `sell`),
as built in calculator.js:68-74. -/
def sortedOrders (ob : OrderBook) (side : Side) : List Level :=
  let filtered := (ordersOf ob side).filter (fun o => 0 < o.1 ∧ 0 < o.2)
  match side with
  | .buy => List.insertionSort (fun a b : Level => a.1 ≤ b.1) filtered
  | .sell => List.insertionSort (fun a b : Level => a.1 ≥ b.1) filtered

/-- `OrderBookCalculator.calculateVWAP` (calculator.js:57-112). -/
def calculateVWAP (ob? : Option OrderBook) (volume : ℚ) (side : Side) : VWAPResult :=
  match ob? with
  | none => ⟨0, 0, volume, 0, 0, []⟩
  | some ob =>
    if volume ≤ 0 then ⟨0, 0, volume, 0, 0, []⟩
    else if (ordersOf ob side).length = 0 then ⟨0, 0, volume, 0, 0, []⟩
    else
      let out := fillLoop (sortedOrders ob side) volume
      let remainingVolume := out.1
      let totalCost := out.2.1
      let totalFilled := out.2.2.1
      let filledOrders := out.2.2.2
      let vwap := if 0 < totalFilled then totalCost / totalFilled else 0
      let bestPrice := getBestPrices (some ob)
      let referencePrice := match side with
        | .buy => bestPrice.bestAsk
        | .sell => bestPrice.bestBid
      let priceImpact :=
        if 0 < referencePrice then (vwap - referencePrice) / referencePrice * 100 else 0
      ⟨vwap, totalFilled, remainingVolume, priceImpact, totalCost, filledOrders⟩

/-- One level of the depth analysis: price, quantity, cumulative volume,
`total = price * quantity`. -/
structure DepthLevel where
  price : ℚ
  quantity : ℚ
  cumulativeVolume : ℚ
  total : ℚ
deriving Repr, DecidableEq

/-- Result shape of `calculateMarketDepth`.  The early return for a missing
book omits the `imbalance` key (it is `undefined` there); in the main branch
`imbalance` is `(bidVol - askVol) / (bidVol + askVol)`, which in JS is `NaN`
when both volumes are `0`.  Both non-values are modelled as `none`. -/
structure DepthResult where
  bidDepth : List DepthLevel
  askDepth : List DepthLevel
  totalBidVolume : ℚ
  totalAskVolume : ℚ
  imbalance : Option ℚ
deriving Repr, DecidableEq

/-- The cumulative-volume pass of `processSide` (calculator.js:135-144). -/
def cumulate (acc : ℚ) : List Level → List DepthLevel
  | [] => []
  | (p, q) :: rest => ⟨p, q, acc + q, p * q⟩ :: cumulate (acc + q) rest

/-- `processSide` inside `calculateMarketDepth` (calculator.js:125-145):
filter valid levels, sort toward the market, truncate to `levels`, then
attach cumulative volumes. -/
def processSide (orders : List Level) (isAsk : Bool) (levels : ℕ) : List DepthLevel :=
  let filtered := orders.filter (fun o => 0 < o.1 ∧ 0 < o.2)
  let sorted :=
    if isAsk then List.insertionSort (fun a b : Level => a.1 ≤ b.1) filtered
    else List.insertionSort (fun a b : Level => a.1 ≥ b.1) filtered
  cumulate 0 (sorted.take levels)

/-- `OrderBookCalculator.calculateMarketDepth` (calculator.js:120-160). -/
def calculateMarketDepth (ob? : Option OrderBook) (levels : ℕ) : DepthResult :=
  match ob? with
  | none => ⟨[], [], 0, 0, none⟩
  | some ob =>
    let bidDepth := processSide ob.bids false levels
    let askDepth := processSide ob.asks true levels
    let totalBidVolume := (bidDepth.map (·.quantity)).sum
    let totalAskVolume := (askDepth.map (·.quantity)).sum
    let imbalance :=
      if totalBidVolume + totalAskVolume = 0 then none
      else some ((totalBidVolume - totalAskVolume) / (totalBidVolume + totalAskVolume))
    ⟨bidDepth, askDepth, totalBidVolume, totalAskVolume, imbalance⟩

/-- Result shape of `calculateQualityMetrics`.  In the main branch the JS
`efficiency = 1 / (spreadBps * (1 / liquidity))` is `+Infinity` when
`spreadBps = 0` (and `liquidity > 0`); that non-finite value is `none` here.
The early all-zero return omits the `midPrice` key (`undefined`, `none`). -/
structure QualityMetrics where
  spread : ℚ
  spreadBps : ℚ
  depth : ℚ
  liquidity : ℚ
  efficiency : Option ℚ
  stability : ℚ
  midPrice : Option ℚ
deriving Repr, DecidableEq

/-- `OrderBookCalculator.calculateQualityMetrics` (calculator.js:213-250). -/
def calculateQualityMetrics (ob? : Option OrderBook) : QualityMetrics :=
  let bestPrices := getBestPrices ob?
  let depth := calculateMarketDepth ob? 20
  if bestPrices.bestBid = 0 ∨ bestPrices.bestAsk = 0 then
    ⟨0, 0, 0, 0, some 0, 0, none⟩
  else
    let spreadBps := bestPrices.spread / bestPrices.midPrice * 10000
    let totalNearVolume := depth.totalBidVolume + depth.totalAskVolume
    let liquidity := totalNearVolume / bestPrices.midPrice
    let efficiency :=
      if 0 < liquidity then
        (if spreadBps * (1 / liquidity) = 0 then none
         else some (1 / (spreadBps * (1 / liquidity))))
      else some 0
    let stability := 1 - |(depth.imbalance.getD 0)|
    ⟨bestPrices.spread, spreadBps, totalNearVolume, liquidity, efficiency, stability,
      some bestPrices.midPrice⟩

/-- A `recommendations` entry of `calculateOptimalSizing`. -/
structure SizingRec where
  size : ℚ
  price : ℚ
  slippage : ℚ
  cost : ℚ
deriving Repr, DecidableEq

/-- Result shape of `calculateOptimalSizing`.  The early return for an empty
side omits `referencePrice` (`undefined`); the model sets it to `0` there and
no theorem reads it in that branch. -/
structure SizingResult where
  maxSize : ℚ
  recommendations : List SizingRec
  referencePrice : ℚ
deriving Repr, DecidableEq

/-- The `while (currentSize < 1000)` loop of `calculateOptimalSizing`
(calculator.js:299-315), with an explicit fuel.  Each iteration adds
`step ≥ 0.01` to `currentSize`, so the JS loop runs at most 100001
iterations; any fuel of at least 100001 yields the loop's exact behaviour
(see `sizingLoop_fuel_stable`).  `acc` holds the pushed recommendations in
reverse push order. -/
def sizingLoop (ob : OrderBook) (side : Side) (referencePrice maxSlippage step : ℚ) :
    ℕ → ℚ → List SizingRec → List SizingRec
  | 0, _, acc => acc.reverse
  | fuel + 1, currentSize, acc =>
    if currentSize < 1000 then
      let s := currentSize + step
      let vwap := calculateVWAP (some ob) s side
      if 0 < vwap.remainingVolume then acc.reverse
      else
        let slippage := (vwap.vwap - referencePrice) / referencePrice * 100
        let acc' : List SizingRec := ⟨s, vwap.vwap, slippage, vwap.totalCost⟩ :: acc
        if maxSlippage < |slippage| then acc'.reverse
        else sizingLoop ob side referencePrice maxSlippage step fuel s acc'
    else acc.reverse

/-- `OrderBookCalculator.calculateOptimalSizing` (calculator.js:286-325).
`step` is `Math.max(Object.values(orders)[0] || 0, 0.01)`: the quantity at
the first enumerated level of the consumed side, floored at `0.01`. -/
def calculateOptimalSizing (ob : OrderBook) (maxSlippage : ℚ) (side : Side) : SizingResult :=
  let orders := ordersOf ob side
  if orders.length = 0 then ⟨0, [], 0⟩
  else
    let bestPrices := getBestPrices (some ob)
    let referencePrice := match side with
      | .buy => bestPrices.bestAsk
      | .sell => bestPrices.bestBid
    let step := max ((orders.headD (0, 0)).2) (1 / 100)
    let recommendations := sizingLoop ob side referencePrice maxSlippage step 100001 0 []
    let maxSize := ((recommendations.getLast?).map (·.size)).getD 0
    ⟨maxSize, recommendations, referencePrice⟩

/-- `ob.Sources?.[0] || ob.Exchange || 'Unknown'` (calculator.js:434), with
JS falsiness of the empty string. -/
def exchangeName (ob : OrderBook) : String :=
  let s0 := ob.sources.headD ""
  if s0 ≠ "" then s0
  else
    match ob.exchange with
    | some e => if e ≠ "" then e else "Unknown"
    | none => "Unknown"

/-- One element of the `exchangeData` array built in `compareOrderBooks`
(calculator.js:429-439): the spread-merge of the `getBestPrices` result and
the `calculateQualityMetrics` result.  `spread` and `midPrice` come from the
quality object when it carries those keys (it always carries `spread`, and
carries `midPrice` only in its main branch). -/
structure ExchangeData where
  exchange : String
  bestBid : ℚ
  bestAsk : ℚ
  spread : ℚ
  spreadPercent : ℚ
  midPrice : ℚ
  spreadBps : ℚ
  depth : ℚ
  liquidity : ℚ
  efficiency : Option ℚ
  stability : ℚ
deriving Repr, DecidableEq

/-- Build the `exchangeData` entry for one (non-null) book. -/
def mkExchangeData (ob : OrderBook) : ExchangeData :=
  let prices := getBestPrices (some ob)
  let quality := calculateQualityMetrics (some ob)
  { exchange := exchangeName ob
    bestBid := prices.bestBid
    bestAsk := prices.bestAsk
    spread := quality.spread
    spreadPercent := prices.spreadPercent
    midPrice := quality.midPrice.getD prices.midPrice
    spreadBps := quality.spreadBps
    depth := quality.depth
    liquidity := quality.liquidity
    efficiency := quality.efficiency
    stability := quality.stability }

/-- An arbitrage opportunity entry (calculator.js:457-479). -/
structure ArbOpportunity where
  buyExchange : String
  sellExchange : String
  buyPrice : ℚ
  sellPrice : ℚ
  profit : ℚ
  profitPercent : ℚ
deriving Repr, DecidableEq

/-- Both directions of the arbitrage check for one unordered pair
(calculator.js:453-480); first the `buy.bestAsk < sell.bestBid` direction,
then the reverse. -/
def pairArbs (buy sell : ExchangeData) : List ArbOpportunity :=
  (if buy.bestAsk < sell.bestBid then
    [⟨buy.exchange, sell.exchange, buy.bestAsk, sell.bestBid,
      sell.bestBid - buy.bestAsk, (sell.bestBid - buy.bestAsk) / buy.bestAsk * 100⟩]
   else []) ++
  (if sell.bestAsk < buy.bestBid then
    [⟨sell.exchange, buy.exchange, sell.bestAsk, buy.bestBid,
      buy.bestBid - sell.bestAsk, (buy.bestBid - sell.bestAsk) / sell.bestAsk * 100⟩]
   else [])

/-- The `i < j` double loop collecting arbitrage opportunities
(calculator.js:447-482). -/
def arbOpps : List ExchangeData → List ArbOpportunity
  | [] => []
  | x :: rest => (rest.map (pairArbs x)).flatten ++ arbOpps rest

/-- `current.efficiency || 0 > best.efficiency || 0` (calculator.js:485-489),
where `none` stands for `+Infinity` (see `QualityMetrics.efficiency`):
`Infinity` is truthy and greater than every finite score. -/
def scoreGt : Option ℚ → Option ℚ → Bool
  | none, none => false
  | none, some _ => true
  | some _, none => false
  | some a, some b => decide (b < a)

/-- `exchangeData.reduce(...)` picking the highest-efficiency exchange. -/
def reduceBest : ExchangeData → List ExchangeData → ExchangeData
  | best, [] => best
  | best, c :: rest => reduceBest (if scoreGt c.efficiency best.efficiency then c else best) rest

/-- `Math.min(...)` over a non-empty list (junk `0` on `[]`, which the code
never reaches: it is only applied with at least two survivors). -/
def listMin : List ℚ → ℚ
  | [] => 0
  | x :: xs => xs.foldl min x

/-- `Math.max(...)` over a non-empty list (junk `0` on `[]`). -/
def listMax : List ℚ → ℚ
  | [] => 0
  | x :: xs => xs.foldl max x

/-- The `summary` object of `compareOrderBooks` (calculator.js:495-501). -/
structure SummaryData where
  averageSpread : ℚ
  averageMidPrice : ℚ
  spreadMin : ℚ
  spreadMax : ℚ
  priceMin : ℚ
  priceMax : ℚ
  exchanges : List String
deriving Repr, DecidableEq

/-- Result shape of `compareOrderBooks`.  The empty result
`{arbitrage: [], bestExchange: null, summary: {}}` has no `exchangeData` key
and an empty `summary` object; those absences are `[]` and `none`. -/
structure CompareResult where
  arbitrage : List ArbOpportunity
  bestExchange : Option String
  exchangeData : List ExchangeData
  summary : Option SummaryData
deriving Repr, DecidableEq

/-- The defined empty result of `compareOrderBooks` (calculator.js:426,442). -/
def emptyCompareResult : CompareResult := ⟨[], none, [], none⟩

/-- The `orderBooks.map(ob => {...})` step of `compareOrderBooks`
(calculator.js:429-438) over the whole input array: a `none` (null) entry
makes the arrow function throw a `TypeError` at `ob.Sources?.[0]`, modelled
by the `none` result (`getBestPrices` and `calculateQualityMetrics` tolerate
a null book, but `ob.Sources` does not). -/
def buildExchangeData : List (Option OrderBook) → Option (List ExchangeData)
  | [] => some []
  | ob? :: rest =>
    match ob? with
    | none => none
    | some ob => (buildExchangeData rest).map (mkExchangeData ob :: ·)

/-- `OrderBookCalculator.compareOrderBooks` (calculator.js:424-509).  The
input list models the JS array, `none` entries modelling `null`/`undefined`
books.  The overall `none` result models the `TypeError` thrown at
`ob.Sources?.[0]` when a book in the array is `null` (that access is reached
after the `length < 2` guard, because `getBestPrices` and
`calculateQualityMetrics` tolerate a null book but `ob.Sources` does not). -/
def compareOrderBooks (books : List (Option OrderBook)) : Option CompareResult :=
  if books.length < 2 then some emptyCompareResult
  else do
    let allData ← buildExchangeData books
    let exchangeData := allData.filter (fun d => 0 < d.bestBid ∧ 0 < d.bestAsk)
    if exchangeData.length < 2 then pure emptyCompareResult
    else
      let arbitrage :=
        List.insertionSort (fun a b : ArbOpportunity => a.profitPercent ≥ b.profitPercent)
          (arbOpps exchangeData)
      let bestExchange := match exchangeData with
        | [] => none
        | x :: rest => some (reduceBest x rest).exchange
      let spreads := exchangeData.map (·.spreadPercent)
      let midPrices := exchangeData.map (·.midPrice)
      let summary : SummaryData :=
        { averageSpread := spreads.sum / spreads.length
          averageMidPrice := midPrices.sum / midPrices.length
          spreadMin := listMin spreads
          spreadMax := listMax spreads
          priceMin := listMin midPrices
          priceMax := listMax midPrices
          exchanges := exchangeData.map (·.exchange) }
      pure ⟨arbitrage, bestExchange, exchangeData, some summary⟩

/-! ## Transport layer, hook side: `hooks/useWebSocket.js` -/

/-- WebSocket ready states (`opened` models `WebSocket.OPEN`; `open` is a
Lean keyword). -/
inductive ReadyState where
  | connecting
  | opened
  | closing
  | closed
deriving Repr, DecidableEq

/-- The `useWebSocket` options that matter here, with their defaults
(useWebSocket.js:4-19). -/
structure WSConfig where
  shouldReconnect : Bool := true
  reconnectAttempts : ℕ := 5
  reconnectInterval : ℚ := 3000
deriving Repr, DecidableEq

/-- The hook state: `webSocketRef` (with the underlying socket's ready state,
`none` while no socket object has been created), `messageQueueRef`, the
transcript of `webSocketRef.current.send` calls, the single
`reconnectTimeoutRef` (holding the scheduled delay), `heartbeatTimeoutRef`
and `connectionAttempts`. -/
structure WSState where
  socket : Option ReadyState
  messageQueue : List String
  sentMessages : List String
  reconnectTimer : Option ℚ
  heartbeatTimer : Bool
  connectionAttempts : ℕ
deriving Repr, DecidableEq

/-- The hook's state right after initialisation. -/
def initialWSState : WSState :=
  ⟨none, [], [], none, false, 0⟩

/-- `clearTimeouts` (useWebSocket.js:45-54). -/
def clearTimeouts (st : WSState) : WSState :=
  { st with reconnectTimer := none, heartbeatTimer := false }

/-- The backoff delay computed in the `onclose` handler (useWebSocket.js:120):
`reconnectInterval * Math.pow(1.5, nextAttempt - 1)`. -/
def reconnectDelay (reconnectInterval : ℚ) (nextAttempt : ℕ) : ℚ :=
  reconnectInterval * (3 / 2) ^ (nextAttempt - 1)

/-- The `onclose` handler (useWebSocket.js:107-127): mark the socket closed,
cancel the timers, and — when reconnection is configured, the attempt counter
is below the limit, and the close was unclean — increment the counter and
schedule one reconnect with the backoff delay. -/
def onClose (cfg : WSConfig) (wasClean : Bool) (st : WSState) : WSState :=
  let st1 := clearTimeouts { st with socket := some .closed }
  if cfg.shouldReconnect ∧ st.connectionAttempts < cfg.reconnectAttempts ∧ ¬wasClean then
    let nextAttempt := st.connectionAttempts + 1
    { st1 with
      connectionAttempts := nextAttempt
      reconnectTimer := some (reconnectDelay cfg.reconnectInterval nextAttempt) }
  else st1

/-- `disconnect` (useWebSocket.js:195-205): cancel the timers and close the
socket with code 1000, which fires a close event with `wasClean = true`.
With no socket object only the timers are cleared. -/
def disconnect (cfg : WSConfig) (st : WSState) : WSState :=
  match st.socket with
  | none => clearTimeouts st
  | some _ => onClose cfg true (clearTimeouts st)

/-- JSON values, as much of them as the outbound messages need. -/
inductive JVal where
  | str : String → JVal
  | num : ℚ → JVal
deriving Repr, DecidableEq

/-- A JSON object as an association list of fields. -/
abbrev JObj := List (String × JVal)

/-- The total positive quantity available on the consumed side. -/
def availableVolume (ob : OrderBook) (side : Side) : ℚ :=
  (((ordersOf ob side).filter (fun o => decide (0 < o.1 ∧ 0 < o.2))).map
    (fun o => o.2)).sum

/-- The books surviving the `bestBid > 0 && bestAsk > 0` filter of
`compareOrderBooks` (calculator.js:439), for an all-non-null input. -/
def survivingExchangeData (books : List OrderBook) : List ExchangeData :=
  (books.map mkExchangeData).filter (fun d => decide (0 < d.bestBid ∧ 0 < d.bestAsk))

/-! ## Transport layer, service side: `services/websocket.js`
(`OrderBookWebSocketService`, concatenated into `src/src/App.css`) -/

/-- The service state: whether a socket object exists (`this.ws !== null`),
the `isConnected`/`isConnecting` flags, the reconnect attempt counter and
`stats.totalReconnects`, the outbound `messageQueue`, the transcript of
`this.ws.send` calls, the single reconnect timer (holding its scheduled
delay), the heartbeat and connection-timeout timers, the subscription set,
`latencyMeasurements` and `stats.averageLatency` (App.css:707-751). -/
structure ServiceState where
  ws : Bool
  isConnected : Bool
  isConnecting : Bool
  reconnectAttempts : ℕ
  totalReconnects : ℕ
  messageQueue : List String
  sentMessages : List String
  reconnectTimer : Option ℚ
  heartbeatTimer : Bool
  connectionTimer : Bool
  subscriptions : List String
  latencyMeasurements : List ℚ
  averageLatency : ℚ
deriving Repr, DecidableEq

/-- The service state right after construction (App.css:720-751). -/
def initialServiceState : ServiceState :=
  ⟨false, false, false, 0, 0, [], [], none, false, false, [], [], 0⟩

/-- The pre-jitter backoff of `scheduleReconnect` (App.css:1063-1065):
`Math.min(baseDelay * Math.pow(2, attempt - 1), maxDelay)`. -/
def serviceExponentialDelay (baseDelay maxDelay : ℚ) (attempt : ℕ) : ℚ :=
  min (baseDelay * 2 ^ (attempt - 1)) maxDelay

/-- `scheduleReconnect` (App.css:1056-1075): a no-op while a reconnect timer
is already pending; otherwise increment the attempt counter and
`totalReconnects` and schedule one timer with delay
`exponentialDelay + jitter`.  The `jitter` argument stands for the draw of
`Math.random() * 1000`, a value in `[0, 1000)`. -/
def scheduleReconnect (baseDelay maxDelay jitter : ℚ) (st : ServiceState) : ServiceState :=
  match st.reconnectTimer with
  | some _ => st
  | none =>
    let attempts := st.reconnectAttempts + 1
    { st with
      reconnectAttempts := attempts
      totalReconnects := st.totalReconnects + 1
      reconnectTimer := some (serviceExponentialDelay baseDelay maxDelay attempts + jitter) }

/-- `OrderBookWebSocketService.send` (App.css:989-1017): when not connected
or with no socket object, queue the message and return `false`; otherwise
transmit on the socket and return `true`.  (The JS `try`/`catch` around
`this.ws.send` is not modelled: the model's transmit does not throw.) -/
def serviceSend (m : String) (st : ServiceState) : ServiceState × Bool :=
  if st.isConnected = false ∨ st.ws = false then
    ({ st with messageQueue := st.messageQueue ++ [m] }, false)
  else
    ({ st with sentMessages := st.sentMessages ++ [m] }, true)

/-- The `while (this.messageQueue.length > 0 && this.isConnected)` loop of
`processMessageQueue` (App.css:1025-1030): shift the front message and
`send` it.  The fuel is the queue length, which is exact whenever a socket
object exists (each iteration then consumes one queued message); in the
unreachable connected-without-socket state the JS loop would re-queue the
shifted message forever. -/
def serviceDrain : ℕ → ServiceState → ServiceState
  | 0, st => st
  | fuel + 1, st =>
    match st.messageQueue, st.isConnected with
    | m :: rest, true => serviceDrain fuel (serviceSend m { st with messageQueue := rest }).1
    | _, _ => st

/-- `processMessageQueue` applied to the service state. -/
def serviceProcessMessageQueue (st : ServiceState) : ServiceState :=
  serviceDrain st.messageQueue.length st

/-- The state updates of `handleConnectionOpen` (App.css:844-870) before the
queue flush: connection timeout cancelled, flags set, attempt counter reset,
heartbeat started.  The handler then calls `processMessageQueue` and
`resubscribe` (the latter sends fresh subscribe messages after the flushed
queue and does not disturb it). -/
def serviceOpen (st : ServiceState) : ServiceState :=
  { st with
    isConnected := true
    isConnecting := false
    reconnectAttempts := 0
    heartbeatTimer := true
    connectionTimer := false }

/-- The message built by `OrderBookWebSocketService.subscribe`
(App.css:1120-1129): `{type: 'subscribe', symbol: symbol.toUpperCase(),
timestamp: Date.now()}`. -/
def serviceSubscribeMessage (symbol : String) (now : ℚ) : JObj :=
  [("type", .str "subscribe"), ("symbol", .str symbol.toUpper), ("timestamp", .num now)]

/-- The message built by `OrderBookWebSocketService.unsubscribe`
(App.css:1132-1141). -/
def serviceUnsubscribeMessage (symbol : String) (now : ℚ) : JObj :=
  [("type", .str "unsubscribe"), ("symbol", .str symbol.toUpper), ("timestamp", .num now)]

/-- The heartbeat message sent by `startHeartbeat` (App.css:1036-1044):
`{type: 'ping', requestTime: Date.now(), connectionId: this.connectionId}`. -/
def serviceHeartbeatMessage (now : ℚ) (connectionId : String) : JObj :=
  [("type", .str "ping"), ("requestTime", .num now), ("connectionId", .str connectionId)]

/-- `updateLatencyStats` (App.css:976-986): push the measurement, `shift()`
the oldest one off when the window exceeds 100 samples, and recompute
`stats.averageLatency` as the window average. -/
def updateLatencyStats (latency : ℚ) (st : ServiceState) : ServiceState :=
  let pushed := st.latencyMeasurements ++ [latency]
  let window := if 100 < pushed.length then pushed.tail else pushed
  { st with latencyMeasurements := window, averageLatency := window.sum / window.length }

/-- `handlePongMessage` (App.css:967-973), reached from `handleMessage` for
every inbound message whose `type` is `'pong'`: when the pong carries a
truthy `requestTime` (a number other than `0`), compute
`latency = now - requestTime` and update the latency statistics. -/
def handlePongMessage (data : JObj) (now : ℚ) (st : ServiceState) : ServiceState :=
  match data.lookup "requestTime" with
  | some (.num rt) => if rt = 0 then st else updateLatencyStats (now - rt) st
  | _ => st

/-! ## Supporting lemmas -/

/-- The bid prices of a book whose positive-price bid filter is empty sort
to the empty list. -/
theorem bidPricesSorted_eq_nil {ob : OrderBook}
    (h : (ob.bids.map Prod.fst).filter (fun p => decide (0 < p)) = []) :
    bidPricesSorted ob = [] := by
  simp [bidPricesSorted, h]

/-- The ask prices of a book whose positive-price ask filter is empty sort
to the empty list. -/
theorem askPricesSorted_eq_nil {ob : OrderBook}
    (h : (ob.asks.map Prod.fst).filter (fun p => decide (0 < p)) = []) :
    askPricesSorted ob = [] := by
  simp [askPricesSorted, h]

/-- Every price in the sorted ask-price list is positive. -/
theorem askPricesSorted_pos {ob : OrderBook} {p : ℚ} (h : p ∈ askPricesSorted ob) : 0 < p := by
  have := List.mem_insertionSort (· ≤ ·) |>.mp h
  simpa using (List.mem_filter.mp this).2

/-- Every price in the sorted bid-price list is positive. -/
theorem bidPricesSorted_pos {ob : OrderBook} {p : ℚ} (h : p ∈ bidPricesSorted ob) : 0 < p := by
  have := List.mem_insertionSort (· ≥ ·) |>.mp h
  simpa using (List.mem_filter.mp this).2

/-! ## C1 -/

/-- C1, counterexample.  A book whose bid side is empty but whose ask side
holds the level `100 ↦ 1` does *not* get the all-zero result from
`getBestPrices`: the ask price is still reported and the spread equals it. -/
theorem getBestPrices_one_sided_not_all_zero :
    (⟨[], [(100, 1)], [], none⟩ : OrderBook).bids = [] ∧
    getBestPrices (some ⟨[], [(100, 1)], [], none⟩) =
      ⟨0, 100, 100, 0, 0⟩ ∧
    (getBestPrices (some ⟨[], [(100, 1)], [], none⟩)).spread ≠ 0 := by
  refine ⟨rfl, ?_, ?_⟩ <;>
    norm_num [getBestPrices, bidPricesSorted, askPricesSorted,
      List.insertionSort, List.orderedInsert]

/-- C1, amended.  `getBestPrices` zeroes only the fields that depend on the
empty side: with no positive-price bid, `bestBid`, `midPrice` and
`spreadPercent` are `0` and `spread = bestAsk`; symmetrically for asks; the
result is all-zero exactly when *both* sides lack a positive-price level
(or the book is null).  A one-sided book still reports the non-empty side's
(positive) best price. -/
theorem getBestPrices_empty_side (ob : OrderBook) :
    ((ob.bids.map Prod.fst).filter (fun p => decide (0 < p)) = [] →
      (getBestPrices (some ob)).bestBid = 0 ∧
      (getBestPrices (some ob)).midPrice = 0 ∧
      (getBestPrices (some ob)).spreadPercent = 0 ∧
      (getBestPrices (some ob)).spread = (getBestPrices (some ob)).bestAsk) ∧
    ((ob.asks.map Prod.fst).filter (fun p => decide (0 < p)) = [] →
      (getBestPrices (some ob)).bestAsk = 0 ∧
      (getBestPrices (some ob)).midPrice = 0 ∧
      (getBestPrices (some ob)).spreadPercent = 0 ∧
      (getBestPrices (some ob)).spread = -(getBestPrices (some ob)).bestBid) ∧
    ((ob.bids.map Prod.fst).filter (fun p => decide (0 < p)) = [] →
      (ob.asks.map Prod.fst).filter (fun p => decide (0 < p)) = [] →
      getBestPrices (some ob) = ⟨0, 0, 0, 0, 0⟩) ∧
    (askPricesSorted ob ≠ [] → 0 < (getBestPrices (some ob)).bestAsk) ∧
    (bidPricesSorted ob ≠ [] → 0 < (getBestPrices (some ob)).bestBid) := by
  refine ⟨?_, ?_, ?_, ?_, ?_⟩
  · intro hb
    have hb' := bidPricesSorted_eq_nil hb
    simp [getBestPrices, hb']
  · intro ha
    have ha' := askPricesSorted_eq_nil ha
    simp [getBestPrices, ha']
  · intro hb ha
    have hb' := bidPricesSorted_eq_nil hb
    have ha' := askPricesSorted_eq_nil ha
    simp [getBestPrices, hb', ha']
  · intro ha
    obtain ⟨p, ps, hps⟩ := List.exists_cons_of_ne_nil ha
    have hp : 0 < p := askPricesSorted_pos (by rw [hps]; exact List.mem_cons_self p ps)
    simp [getBestPrices, hps, hp]
  · intro hb
    obtain ⟨p, ps, hps⟩ := List.exists_cons_of_ne_nil hb
    have hp : 0 < p := bidPricesSorted_pos (by rw [hps]; exact List.mem_cons_self p ps)
    simp [getBestPrices, hps, hp]

/-- Witness for `getBestPrices_empty_side` at the book with two empty
sides. -/
theorem getBestPrices_empty_side_witness :
    getBestPrices (some ⟨[], [], [], none⟩) = ⟨0, 0, 0, 0, 0⟩ :=
  (getBestPrices_empty_side ⟨[], [], [], none⟩).2.2.1 (by simp) (by simp)

/-! ## C2 -/

/-- The fill loop leaves `remainingVolume = volume - totalFilled`. -/
theorem fillLoop_remaining : ∀ (l : List Level) (v : ℚ),
    (fillLoop l v).1 = v - (fillLoop l v).2.2.1
  | [], v => by simp [fillLoop]
  | (p, q) :: rest, v => by
    by_cases h : v ≤ 0
    · simp [fillLoop, h]
    · have ih := fillLoop_remaining rest (v - min v q)
      simp only [fillLoop, if_neg h]
      rw [ih]
      ring

/-- The fill loop fills exactly `min volume (total available quantity)` when
all quantities are positive and the requested volume is non-negative. -/
theorem fillLoop_filled : ∀ (l : List Level) (v : ℚ), 0 ≤ v → (∀ x ∈ l, 0 < x.2) →
    (fillLoop l v).2.2.1 = min v ((l.map (fun x => x.2)).sum)
  | [], v, hv, _ => by simp [fillLoop, min_eq_right hv]
  | (p, q) :: rest, v, hv, hq => by
    have hq0 : 0 < q := hq (p, q) (List.mem_cons_self _ _)
    have hrest : ∀ x ∈ rest, 0 < x.2 := fun x hx => hq x (List.mem_cons_of_mem _ hx)
    have hsum : 0 ≤ (rest.map (fun x => x.2)).sum :=
      List.sum_nonneg (by
        intro x hx
        obtain ⟨y, hy, rfl⟩ := List.mem_map.mp hx
        exact le_of_lt (hrest y hy))
    by_cases h : v ≤ 0
    · have hv0 : v = 0 := le_antisymm h hv
      subst hv0
      simp [fillLoop]
      positivity
    · push_neg at h
      have hfq : min v q ≤ v := min_le_left _ _
      have ih := fillLoop_filled rest (v - min v q) (by linarith) hrest
      simp only [fillLoop, if_neg (not_le.mpr h)]
      rw [ih]
      simp only [List.map_cons, List.sum_cons]
      rcases le_total v q with hvq | hvq
      · rw [min_eq_left hvq, sub_self, min_eq_left hsum,
          min_eq_left (by linarith : v ≤ q + (rest.map (fun x => x.2)).sum)]
        ring
      · rw [min_eq_right hvq]
        rcases le_total (v - q) ((rest.map (fun x => x.2)).sum) with hr | hr
        · rw [min_eq_left hr,
            min_eq_left (by linarith : v ≤ q + (rest.map (fun x => x.2)).sum)]
          ring
        · rw [min_eq_right hr,
            min_eq_right (by linarith : q + (rest.map (fun x => x.2)).sum ≤ v)]
          ring

/-- The sorted consumed side is a permutation of the filtered side, so its
quantities are positive and they sum to `availableVolume`. -/
theorem sortedOrders_perm (ob : OrderBook) (side : Side) :
    List.Perm (sortedOrders ob side)
      ((ordersOf ob side).filter (fun o => decide (0 < o.1 ∧ 0 < o.2))) := by
  cases side <;> exact List.perm_insertionSort _ _

/-- Quantities on the sorted consumed side are positive. -/
theorem sortedOrders_qty_pos (ob : OrderBook) (side : Side) :
    ∀ x ∈ sortedOrders ob side, 0 < x.2 := by
  intro x hx
  have := (sortedOrders_perm ob side).mem_iff.mp hx
  have := List.mem_filter.mp this
  have h2 : 0 < x.1 ∧ 0 < x.2 := by simpa using this.2
  exact h2.2

/-- The quantities on the sorted consumed side sum to `availableVolume`. -/
theorem sortedOrders_sum (ob : OrderBook) (side : Side) :
    ((sortedOrders ob side).map (fun x => x.2)).sum = availableVolume ob side :=
  ((sortedOrders_perm ob side).map (fun x => x.2)).sum_eq

/-- C2.  For positive requested volume, `calculateVWAP` fills
`min volume (available positive quantity on the consumed side)` and reports
`remainingVolume = volume - totalVolume`; concretely, on asks
`{100: 1, 101: 2}` a buy of 2 achieves VWAP `100.5` with nothing remaining,
and a buy of 5 fills only the available 3 units, leaving 2. -/
theorem calculateVWAP_greedy_fill (ob : OrderBook) (v : ℚ) (side : Side) (hv : 0 < v) :
    ((calculateVWAP (some ob) v side).totalVolume = min v (availableVolume ob side) ∧
     (calculateVWAP (some ob) v side).remainingVolume =
       v - (calculateVWAP (some ob) v side).totalVolume) ∧
    (calculateVWAP (some ⟨[], [(100, 1), (101, 2)], [], none⟩) 2 .buy).vwap = 100.5 ∧
    (calculateVWAP (some ⟨[], [(100, 1), (101, 2)], [], none⟩) 2 .buy).remainingVolume = 0 ∧
    (calculateVWAP (some ⟨[], [(100, 1), (101, 2)], [], none⟩) 5 .buy).totalVolume = 3 ∧
    (calculateVWAP (some ⟨[], [(100, 1), (101, 2)], [], none⟩) 5 .buy).remainingVolume = 2 := by
  refine ⟨?_, ?_, ?_, ?_, ?_⟩
  · by_cases hlen : (ordersOf ob side).length = 0
    · have hnil : ordersOf ob side = [] := List.length_eq_zero.mp hlen
      constructor
      · simp [calculateVWAP, if_neg (not_le.mpr hv), hlen, availableVolume, hnil,
          min_eq_right (le_of_lt hv)]
      · simp [calculateVWAP, if_neg (not_le.mpr hv), hlen]
    · have hfill := fillLoop_filled (sortedOrders ob side) v (le_of_lt hv)
        (sortedOrders_qty_pos ob side)
      have hrem := fillLoop_remaining (sortedOrders ob side) v
      constructor
      · simp only [calculateVWAP, if_neg (not_le.mpr hv), if_neg hlen]
        rw [hfill, sortedOrders_sum]
      · simp only [calculateVWAP, if_neg (not_le.mpr hv), if_neg hlen]
        exact hrem
  all_goals
    norm_num [calculateVWAP, fillLoop, sortedOrders, ordersOf, getBestPrices,
      bidPricesSorted, askPricesSorted, List.insertionSort, List.orderedInsert, min_def]

/-- Witness for `calculateVWAP_greedy_fill`: the buy of 5 against 3
available units. -/
theorem calculateVWAP_greedy_fill_witness :
    (0 : ℚ) < 5 ∧
    (calculateVWAP (some ⟨[], [(100, 1), (101, 2)], [], none⟩) 5 .buy).totalVolume =
      min 5 (availableVolume ⟨[], [(100, 1), (101, 2)], [], none⟩ .buy) :=
  ⟨by norm_num, (calculateVWAP_greedy_fill ⟨[], [(100, 1), (101, 2)], [], none⟩ 5 .buy
    (by norm_num)).1.1⟩

/-! ## C3 -/

/-- C3.  `scheduleReconnect` schedules exactly
`min(base * 2^(attempt-1), maxDelay) + jitter` for the incremented attempt
counter; with the defaults `base = 3000`, `max = 30000`, the pre-jitter
delays for attempts 1..5 are 3000, 6000, 12000, 24000, 30000, so for every
jitter in `[0, 1000)` the scheduled delays fall in `[3000,4000)`,
`[6000,7000)`, `[12000,13000)`, `[24000,25000)` and `[30000,31000)`. -/
theorem scheduleReconnect_backoff (st : ServiceState) (jitter : ℚ)
    (hpend : st.reconnectTimer = none) (hj0 : 0 ≤ jitter) (hj1 : jitter < 1000) :
    (scheduleReconnect 3000 30000 jitter st).reconnectTimer =
      some (serviceExponentialDelay 3000 30000 (st.reconnectAttempts + 1) + jitter) ∧
    (scheduleReconnect 3000 30000 jitter st).reconnectAttempts =
      st.reconnectAttempts + 1 ∧
    (serviceExponentialDelay 3000 30000 1 = 3000 ∧
     serviceExponentialDelay 3000 30000 2 = 6000 ∧
     serviceExponentialDelay 3000 30000 3 = 12000 ∧
     serviceExponentialDelay 3000 30000 4 = 24000 ∧
     serviceExponentialDelay 3000 30000 5 = 30000) ∧
    (3000 ≤ serviceExponentialDelay 3000 30000 1 + jitter ∧
      serviceExponentialDelay 3000 30000 1 + jitter < 4000) ∧
    (6000 ≤ serviceExponentialDelay 3000 30000 2 + jitter ∧
      serviceExponentialDelay 3000 30000 2 + jitter < 7000) ∧
    (12000 ≤ serviceExponentialDelay 3000 30000 3 + jitter ∧
      serviceExponentialDelay 3000 30000 3 + jitter < 13000) ∧
    (24000 ≤ serviceExponentialDelay 3000 30000 4 + jitter ∧
      serviceExponentialDelay 3000 30000 4 + jitter < 25000) ∧
    (30000 ≤ serviceExponentialDelay 3000 30000 5 + jitter ∧
      serviceExponentialDelay 3000 30000 5 + jitter < 31000) := by
  have e1 : serviceExponentialDelay 3000 30000 1 = 3000 := by
    norm_num [serviceExponentialDelay, min_def]
  have e2 : serviceExponentialDelay 3000 30000 2 = 6000 := by
    norm_num [serviceExponentialDelay, min_def]
  have e3 : serviceExponentialDelay 3000 30000 3 = 12000 := by
    norm_num [serviceExponentialDelay, min_def]
  have e4 : serviceExponentialDelay 3000 30000 4 = 24000 := by
    norm_num [serviceExponentialDelay, min_def]
  have e5 : serviceExponentialDelay 3000 30000 5 = 30000 := by
    norm_num [serviceExponentialDelay, min_def]
  refine ⟨by simp [scheduleReconnect, hpend], by simp [scheduleReconnect, hpend],
    ⟨e1, e2, e3, e4, e5⟩, ?_, ?_, ?_, ?_, ?_⟩
  · rw [e1]; exact ⟨by linarith, by linarith⟩
  · rw [e2]; exact ⟨by linarith, by linarith⟩
  · rw [e3]; exact ⟨by linarith, by linarith⟩
  · rw [e4]; exact ⟨by linarith, by linarith⟩
  · rw [e5]; exact ⟨by linarith, by linarith⟩

/-- Witness for `scheduleReconnect_backoff`: the first reconnect from the
fresh service state with zero jitter. -/
theorem scheduleReconnect_backoff_witness :
    (scheduleReconnect 3000 30000 0 initialServiceState).reconnectTimer =
      some (serviceExponentialDelay 3000 30000 1 + 0) ∧
    (scheduleReconnect 3000 30000 0 initialServiceState).reconnectAttempts = 1 := by
  have h := scheduleReconnect_backoff initialServiceState 0 rfl (by norm_num) (by norm_num)
  exact ⟨h.1, h.2.1⟩

/-! ## C4 -/

/-- C4, counterexample.  On a book both of whose sides are present but
empty, `calculateMarketDepth` computes `imbalance = 0/0`, which is `NaN`
(modelled `none`), not the claimed defined `0`. -/
theorem marketDepth_imbalance_counterexample :
    (calculateMarketDepth (some ⟨[], [], [], none⟩) 10).imbalance = none := by
  norm_num [calculateMarketDepth, processSide, cumulate, List.insertionSort]

/-- Every depth level produced by `processSide` has positive quantity. -/
theorem processSide_qty_pos (orders : List Level) (isAsk : Bool) (levels : ℕ) :
    ∀ d ∈ processSide orders isAsk levels, 0 < d.quantity := by
  have hcum : ∀ (l : List Level) (acc : ℚ), ∀ d ∈ cumulate acc l, ∃ x ∈ l, d.quantity = x.2 := by
    intro l
    induction l with
    | nil => intro acc d hd; simp [cumulate] at hd
    | cons x rest ih =>
      intro acc d hd
      obtain ⟨p, q⟩ := x
      rcases List.mem_cons.mp hd with h | h
      · exact ⟨(p, q), List.mem_cons_self _ _, by rw [h]⟩
      · obtain ⟨y, hy, hdy⟩ := ih (acc + q) d h
        exact ⟨y, List.mem_cons_of_mem _ hy, hdy⟩
  intro d hd
  unfold processSide at hd
  obtain ⟨x, hx, hdx⟩ := hcum _ _ d hd
  have hx' := List.mem_of_mem_take hx
  have hmem : x ∈ orders.filter (fun o => decide (0 < o.1 ∧ 0 < o.2)) := by
    by_cases hAsk : isAsk <;> simp only [hAsk, if_true, if_false] at hx' <;>
      exact (List.mem_insertionSort _).mp hx'
  have := List.mem_filter.mp hmem
  have h2 : 0 < x.1 ∧ 0 < x.2 := by simpa using this.2
  rw [hdx]
  exact h2.2

/-- The per-side total volumes of `calculateMarketDepth` are non-negative. -/
theorem marketDepth_volumes_nonneg (ob? : Option OrderBook) (levels : ℕ) :
    0 ≤ (calculateMarketDepth ob? levels).totalBidVolume ∧
      0 ≤ (calculateMarketDepth ob? levels).totalAskVolume := by
  cases ob? with
  | none => simp [calculateMarketDepth]
  | some ob =>
    constructor <;>
    · apply List.sum_nonneg
      intro x hx
      obtain ⟨d, hd, rfl⟩ := List.mem_map.mp hx
      exact le_of_lt (processSide_qty_pos _ _ _ d hd)

/-- C4, amended.  Whenever `calculateMarketDepth` yields a defined
`imbalance` it lies in `[-1, 1]`; but when the filtered depth carries no
volume at all (in particular when both sides are empty) the division is
`0/0` and the `imbalance` is `NaN` (`none`), not `0`; the `NaN` is returned
to the caller (`calculateQualityMetrics` coerces it to `0` itself via
`depth.imbalance || 0`). -/
theorem marketDepth_imbalance_bounds (ob? : Option OrderBook) (levels : ℕ) :
    ((calculateMarketDepth ob? levels).totalBidVolume +
        (calculateMarketDepth ob? levels).totalAskVolume = 0 →
      (calculateMarketDepth ob? levels).imbalance = none) ∧
    ∀ q, (calculateMarketDepth ob? levels).imbalance = some q → -1 ≤ q ∧ q ≤ 1 := by
  obtain ⟨hB, hA⟩ := marketDepth_volumes_nonneg ob? levels
  cases ob? with
  | none => simp [calculateMarketDepth]
  | some ob =>
    revert hB hA
    simp only [calculateMarketDepth]
    intro hB hA
    constructor
    · intro h0
      simp [h0]
    · intro q hq
      by_cases hz :
          (List.map (fun d => d.quantity) (processSide ob.bids false levels)).sum +
            (List.map (fun d => d.quantity) (processSide ob.asks true levels)).sum = 0
      · simp [hz] at hq
      · simp only [if_neg hz, Option.some_inj] at hq
        have hpos : 0 <
            (List.map (fun d => d.quantity) (processSide ob.bids false levels)).sum +
              (List.map (fun d => d.quantity) (processSide ob.asks true levels)).sum := by
          rcases lt_or_eq_of_le (by simpa using add_nonneg hB hA) with h | h
          · exact h
          · exact absurd h.symm hz
        subst hq
        constructor
        · rw [le_div_iff₀ hpos]
          linarith
        · rw [div_le_one hpos]
          linarith

/-- Witness for `marketDepth_imbalance_bounds`: a bid-only book has
imbalance exactly `1`. -/
theorem marketDepth_imbalance_bounds_witness :
    (-1 : ℚ) ≤ 1 ∧ (1 : ℚ) ≤ 1 :=
  (marketDepth_imbalance_bounds (some ⟨[(1, 2)], [], [], none⟩) 10).2 1 (by
    norm_num [calculateMarketDepth, processSide, cumulate, List.insertionSort,
      List.orderedInsert])

/-! ## C5 -/

/-- `calculateVWAP` never reports a negative remaining volume for a
non-negative request. -/
theorem vwap_remaining_nonneg (ob : OrderBook) (v : ℚ) (side : Side) (hv : 0 ≤ v) :
    0 ≤ (calculateVWAP (some ob) v side).remainingVolume := by
  by_cases h0 : v ≤ 0
  · simpa [calculateVWAP, h0] using hv
  · push_neg at h0
    by_cases hlen : (ordersOf ob side).length = 0
    · simpa [calculateVWAP, if_neg (not_le.mpr h0), hlen] using hv
    · simp only [calculateVWAP, if_neg (not_le.mpr h0), if_neg hlen]
      rw [fillLoop_remaining,
        fillLoop_filled _ _ hv (sortedOrders_qty_pos ob side)]
      have := min_le_left v (((sortedOrders ob side).map (fun x => x.2)).sum)
      linarith

/-- One unfolding of the sizing loop. -/
theorem sizingLoop_succ (ob : OrderBook) (side : Side) (rp ms step : ℚ)
    (fuel : ℕ) (cs : ℚ) (acc : List SizingRec) :
    sizingLoop ob side rp ms step (fuel + 1) cs acc =
      if cs < 1000 then
        let s := cs + step
        let vwap := calculateVWAP (some ob) s side
        if 0 < vwap.remainingVolume then acc.reverse
        else
          let slippage := (vwap.vwap - rp) / rp * 100
          let acc' : List SizingRec := ⟨s, vwap.vwap, slippage, vwap.totalCost⟩ :: acc
          if ms < |slippage| then acc'.reverse
          else sizingLoop ob side rp ms step fuel s acc'
      else acc.reverse := rfl

/-- Loop invariant of the sizing loop: all recommendations it returns fill
completely, and all but possibly the last stay within the slippage bound
(the violating candidate is pushed *before* the bound is checked and only
then stops the loop). -/
theorem sizingLoop_invariant (ob : OrderBook) (side : Side) (rp ms step : ℚ)
    (hstep : 0 < step) :
    ∀ (fuel : ℕ) (cs : ℚ) (acc : List SizingRec), 0 ≤ cs →
      (∀ r ∈ acc, |r.slippage| ≤ ms) →
      (∀ r ∈ acc, (calculateVWAP (some ob) r.size side).remainingVolume = 0) →
      (∀ r ∈ (sizingLoop ob side rp ms step fuel cs acc).dropLast, |r.slippage| ≤ ms) ∧
      (∀ r ∈ sizingLoop ob side rp ms step fuel cs acc,
          (calculateVWAP (some ob) r.size side).remainingVolume = 0)
  | 0, cs, acc, _, hslip, hfill => by
    simp only [sizingLoop]
    exact ⟨fun r hr => hslip r (List.mem_reverse.mp (List.dropLast_subset _ hr)),
      fun r hr => hfill r (List.mem_reverse.mp hr)⟩
  | fuel + 1, cs, acc, hcs, hslip, hfill => by
    rw [sizingLoop_succ]
    by_cases hlt : cs < 1000
    · rw [if_pos hlt]
      by_cases hrem : 0 < (calculateVWAP (some ob) (cs + step) side).remainingVolume
      · simp only [if_pos hrem]
        exact ⟨fun r hr => hslip r (List.mem_reverse.mp (List.dropLast_subset _ hr)),
          fun r hr => hfill r (List.mem_reverse.mp hr)⟩
      · simp only [if_neg hrem]
        have hfillnew :
            (calculateVWAP (some ob) (cs + step) side).remainingVolume = 0 :=
          le_antisymm (not_lt.mp hrem)
            (vwap_remaining_nonneg ob (cs + step) side (by linarith))
        set rec : SizingRec :=
          ⟨cs + step, (calculateVWAP (some ob) (cs + step) side).vwap,
            ((calculateVWAP (some ob) (cs + step) side).vwap - rp) / rp * 100,
            (calculateVWAP (some ob) (cs + step) side).totalCost⟩ with hrec
        by_cases hms :
            ms < |((calculateVWAP (some ob) (cs + step) side).vwap - rp) / rp * 100|
        · simp only [if_pos hms]
          constructor
          · intro r hr
            rw [List.reverse_cons, List.dropLast_concat] at hr
            exact hslip r (List.mem_reverse.mp hr)
          · intro r hr
            rw [List.reverse_cons, List.mem_append] at hr
            rcases hr with hr | hr
            · exact hfill r (List.mem_reverse.mp hr)
            · rw [List.mem_singleton.mp hr]
              exact hfillnew
        · simp only [if_neg hms]
          exact sizingLoop_invariant ob side rp ms step hstep fuel (cs + step) (rec :: acc)
            (by linarith)
            (by
              intro r hr
              rcases List.mem_cons.mp hr with hr | hr
              · rw [hr]; exact not_lt.mp hms
              · exact hslip r hr)
            (by
              intro r hr
              rcases List.mem_cons.mp hr with hr | hr
              · rw [hr]; exact hfillnew
              · exact hfill r hr)
    · rw [if_neg hlt]
      exact ⟨fun r hr => hslip r (List.mem_reverse.mp (List.dropLast_subset _ hr)),
        fun r hr => hfill r (List.mem_reverse.mp hr)⟩

/-- The recommendation list computed by `calculateOptimalSizing` on asks
`{100: 1, 200: 1}` with `maxSlippage = 0.1` (shared evaluation).  The second
iteration's candidate (size 2, slippage 50%) is pushed before the bound
check, and the loop then stops. -/
theorem sizingExample_recs :
    (calculateOptimalSizing ⟨[], [(100, 1), (200, 1)], [], none⟩ (1 / 10) .buy).recommendations
      = [⟨1, 100, 0, 100⟩, ⟨2, 150, 50, 300⟩] := by
  rw [calculateOptimalSizing]
  norm_num [ordersOf, getBestPrices, bidPricesSorted, askPricesSorted,
    List.insertionSort, List.orderedInsert]
  rw [show (100001 : ℕ) = 100000 + 1 from rfl, sizingLoop_succ]
  norm_num [calculateVWAP, fillLoop, sortedOrders, ordersOf, getBestPrices,
    bidPricesSorted, askPricesSorted, List.insertionSort, List.orderedInsert, min_def]
  rw [show (100000 : ℕ) = 99999 + 1 from rfl, sizingLoop_succ]
  norm_num [calculateVWAP, fillLoop, sortedOrders, ordersOf, getBestPrices,
    bidPricesSorted, askPricesSorted, List.insertionSort, List.orderedInsert, min_def]

/-- C5, counterexample.  On asks `{100: 1, 200: 1}` with
`maxSlippage = 0.1`, the returned `maxSize` is `2`, but the recommendation
of that size has slippage `50% > 0.1%`: the largest returned size does
*not* stay within `maxSlippagePct`. -/
theorem optimalSizing_counterexample :
    (calculateOptimalSizing ⟨[], [(100, 1), (200, 1)], [], none⟩ (1 / 10) .buy).maxSize = 2 ∧
    (⟨2, 150, 50, 300⟩ : SizingRec) ∈
      (calculateOptimalSizing ⟨[], [(100, 1), (200, 1)], [], none⟩ (1 / 10) .buy).recommendations ∧
    ¬ |(⟨2, 150, 50, 300⟩ : SizingRec).slippage| ≤ 1 / 10 := by
  refine ⟨?_, ?_, by norm_num⟩
  · rw [show (calculateOptimalSizing ⟨[], [(100, 1), (200, 1)], [], none⟩ (1 / 10) .buy).maxSize
        = (((calculateOptimalSizing ⟨[], [(100, 1), (200, 1)], [], none⟩
            (1 / 10) .buy).recommendations.getLast?).map SizingRec.size).getD 0 from rfl,
      sizingExample_recs]
    rfl
  · rw [sizingExample_recs]
    simp

/-- C5, amended.  Every recommendation returned by `calculateOptimalSizing`
fills completely, and every recommendation *except possibly the last* has
absolute slippage within `maxSlippagePct`; `maxSize` is the size of the last
recommendation (the loop pushes the first candidate exceeding the bound and
only then stops, so the last entry — whose size is reported as `maxSize` —
may exceed the bound by one step). -/
theorem optimalSizing_within_bound (ob : OrderBook) (ms : ℚ) (side : Side) :
    (∀ r ∈ (calculateOptimalSizing ob ms side).recommendations.dropLast,
      |r.slippage| ≤ ms) ∧
    (∀ r ∈ (calculateOptimalSizing ob ms side).recommendations,
      (calculateVWAP (some ob) r.size side).remainingVolume = 0) := by
  by_cases hlen : (ordersOf ob side).length = 0
  · simp [calculateOptimalSizing, hlen]
  · have hstep : (0 : ℚ) < max ((ordersOf ob side).headD (0, 0)).2 (1 / 100) :=
      lt_of_lt_of_le (by norm_num) (le_max_right _ _)
    cases side with
    | buy =>
      have hinv := sizingLoop_invariant ob .buy ((getBestPrices (some ob)).bestAsk)
        ms (max ((ordersOf ob .buy).headD (0, 0)).2 (1 / 100)) hstep
        100001 0 [] le_rfl (by simp) (by simp)
      simpa [calculateOptimalSizing, hlen] using hinv
    | sell =>
      have hinv := sizingLoop_invariant ob .sell ((getBestPrices (some ob)).bestBid)
        ms (max ((ordersOf ob .sell).headD (0, 0)).2 (1 / 100)) hstep
        100001 0 [] le_rfl (by simp) (by simp)
      simpa [calculateOptimalSizing, hlen] using hinv

/-- Witness for `optimalSizing_within_bound`: the first recommendation of
the shared example is not the last and its slippage `0` is within the
bound. -/
theorem optimalSizing_within_bound_witness :
    (⟨1, 100, 0, 100⟩ : SizingRec) ∈
      (calculateOptimalSizing ⟨[], [(100, 1), (200, 1)], [], none⟩
        (1 / 10) .buy).recommendations.dropLast ∧
    |(⟨1, 100, 0, 100⟩ : SizingRec).slippage| ≤ 1 / 10 := by
  have hmem : (⟨1, 100, 0, 100⟩ : SizingRec) ∈
      (calculateOptimalSizing ⟨[], [(100, 1), (200, 1)], [], none⟩
        (1 / 10) .buy).recommendations.dropLast := by
    rw [sizingExample_recs]
    simp
  exact ⟨hmem,
    (optimalSizing_within_bound ⟨[], [(100, 1), (200, 1)], [], none⟩ (1 / 10) .buy).1 _ hmem⟩

/-! ## C6 -/

/-- Draining with `isConnected` and a socket object empties the queue and
appends it, in order, to the send transcript. -/
theorem serviceDrain_flush : ∀ (q : List String) (st : ServiceState),
    st.messageQueue = q → st.isConnected = true → st.ws = true →
    serviceDrain q.length st =
      { st with messageQueue := [], sentMessages := st.sentMessages ++ q }
  | [], st, hq, _, _ => by
    simp only [List.length_nil, serviceDrain]
    cases st
    simp_all
  | m :: rest, st, hq, hc, hw => by
    obtain ⟨ws, conn, conng, ra, tr, mq, sm, rt, hb, ct, subs, lm, avg⟩ := st
    dsimp only at hq hc hw
    subst hq; subst hc; subst hw
    simp only [List.length_cons, serviceDrain]
    have hsend : serviceSend m
        (⟨true, true, conng, ra, tr, rest, sm, rt, hb, ct, subs, lm, avg⟩ : ServiceState) =
        (⟨true, true, conng, ra, tr, rest, sm ++ [m], rt, hb, ct, subs, lm, avg⟩, true) := by
      simp [serviceSend]
    rw [hsend]
    rw [serviceDrain_flush rest
      ⟨true, true, conng, ra, tr, rest, sm ++ [m], rt, hb, ct, subs, lm, avg⟩ rfl rfl rfl]
    simp

/-- C6.  `OrderBookWebSocketService.send` transmits immediately when the
connection is open; in every other case — the socket not connected, or no
socket object at all — it appends the message to the outbound queue and
returns the `false` "queued" indicator without throwing; and the `Open`
transition's `processMessageQueue` transmits all queued messages exactly
once, in FIFO order (the handler then resubscribes, which only appends
fresh subscribe messages after the flushed queue). -/
theorem serviceSend_contract (st : ServiceState) (m : String) :
    (st.isConnected = true → st.ws = true →
      serviceSend m st = ({ st with sentMessages := st.sentMessages ++ [m] }, true)) ∧
    (st.isConnected = false ∨ st.ws = false →
      serviceSend m st = ({ st with messageQueue := st.messageQueue ++ [m] }, false)) ∧
    (st.ws = true →
      (serviceProcessMessageQueue (serviceOpen st)).sentMessages =
        st.sentMessages ++ st.messageQueue ∧
      (serviceProcessMessageQueue (serviceOpen st)).messageQueue = []) := by
  refine ⟨?_, ?_, ?_⟩
  · intro hc hw
    simp [serviceSend, hc, hw]
  · intro h
    rcases h with h | h <;> simp [serviceSend, h]
  · intro hw
    have h := serviceDrain_flush st.messageQueue (serviceOpen st) rfl rfl
      (by simpa [serviceOpen] using hw)
    constructor <;>
    · rw [serviceProcessMessageQueue, show (serviceOpen st).messageQueue
        = st.messageQueue from rfl, h] <;> simp [serviceOpen]

/-- Witness for `serviceSend_contract`: two queued messages are flushed, in
order, ahead of the pre-existing transcript tail on the open transition. -/
theorem serviceSend_contract_witness :
    (serviceProcessMessageQueue (serviceOpen
        (⟨true, false, false, 0, 0, ["a", "b"], ["z"], none, false, false, [], [], 0⟩ :
          ServiceState))).sentMessages = ["z", "a", "b"] ∧
    (serviceProcessMessageQueue (serviceOpen
        (⟨true, false, false, 0, 0, ["a", "b"], ["z"], none, false, false, [], [], 0⟩ :
          ServiceState))).messageQueue = [] :=
  (serviceSend_contract
    ⟨true, false, false, 0, 0, ["a", "b"], ["z"], none, false, false, [], [], 0⟩ "").2.2 rfl

/-! ## C7 -/

/-- C7.  Every outbound subscription control message built by the service
has the shape `{type: "subscribe"|"unsubscribe", symbol: <the upper-cased
symbol>, timestamp: number}`, and the heartbeat has the shape
`{type: "ping", requestTime: number, connectionId: string}` — and those are
their only fields. -/
theorem service_outbound_shapes (sym : String) (now : ℚ) (cid : String) :
    (serviceSubscribeMessage sym now).lookup "type" = some (.str "subscribe") ∧
    (serviceSubscribeMessage sym now).lookup "symbol" = some (.str sym.toUpper) ∧
    (serviceSubscribeMessage sym now).lookup "timestamp" = some (.num now) ∧
    (serviceUnsubscribeMessage sym now).lookup "type" = some (.str "unsubscribe") ∧
    (serviceUnsubscribeMessage sym now).lookup "symbol" = some (.str sym.toUpper) ∧
    (serviceUnsubscribeMessage sym now).lookup "timestamp" = some (.num now) ∧
    (serviceSubscribeMessage sym now).map Prod.fst = ["type", "symbol", "timestamp"] ∧
    (serviceHeartbeatMessage now cid).lookup "type" = some (.str "ping") ∧
    (serviceHeartbeatMessage now cid).lookup "requestTime" = some (.num now) ∧
    (serviceHeartbeatMessage now cid).lookup "connectionId" = some (.str cid) ∧
    (serviceHeartbeatMessage now cid).map Prod.fst =
      ["type", "requestTime", "connectionId"] := by
  refine ⟨?_, ?_, ?_, ?_, ?_, ?_, ?_, ?_, ?_, ?_, ?_⟩ <;>
    simp [serviceSubscribeMessage, serviceUnsubscribeMessage,
      serviceHeartbeatMessage, List.lookup]

/-! ## C8 -/

/-- C8.  On receipt of a pong carrying a (truthy) `requestTime`, the service
computes `latency = now - requestTime` and pushes it into the rolling
window: with fewer than 100 samples the new sample is appended; with 100
samples the oldest is evicted as the 101st arrives; a window within the
100-sample cap stays within it; and `averageLatency` is recomputed as the
average over the resulting window. -/
theorem pong_latency_window (data : JObj) (rt now : ℚ) (st : ServiceState)
    (hdata : data.lookup "requestTime" = some (.num rt)) (hrt : rt ≠ 0) :
    (st.latencyMeasurements.length < 100 →
      (handlePongMessage data now st).latencyMeasurements =
        st.latencyMeasurements ++ [now - rt]) ∧
    (st.latencyMeasurements.length = 100 →
      (handlePongMessage data now st).latencyMeasurements =
        st.latencyMeasurements.tail ++ [now - rt]) ∧
    (st.latencyMeasurements.length ≤ 100 →
      (handlePongMessage data now st).latencyMeasurements.length ≤ 100) ∧
    (handlePongMessage data now st).averageLatency =
      (handlePongMessage data now st).latencyMeasurements.sum /
        (handlePongMessage data now st).latencyMeasurements.length := by
  simp only [handlePongMessage, hdata, if_neg hrt]
  refine ⟨?_, ?_, ?_, ?_⟩
  · intro hlen
    have hnot : ¬ 100 < (st.latencyMeasurements ++ [now - rt]).length := by
      simp only [List.length_append, List.length_singleton]
      omega
    simp only [updateLatencyStats]
    rw [if_neg hnot]
  · intro hlen
    have hgt : 100 < (st.latencyMeasurements ++ [now - rt]).length := by
      simp only [List.length_append, List.length_singleton]
      omega
    simp only [updateLatencyStats, if_pos hgt]
    obtain ⟨x, xs, hxs⟩ : ∃ x xs, st.latencyMeasurements = x :: xs := by
      cases hc : st.latencyMeasurements with
      | nil => rw [hc] at hlen; simp at hlen
      | cons x xs => exact ⟨x, xs, rfl⟩
    rw [hxs]
    simp
  · intro hlen
    by_cases hgt : 100 < (st.latencyMeasurements ++ [now - rt]).length
    · simp only [updateLatencyStats, if_pos hgt]
      simp only [List.length_tail, List.length_append, List.length_singleton]
      omega
    · simp only [updateLatencyStats, if_neg hgt]
      simp only [List.length_append, List.length_singleton] at hgt ⊢
      omega
  · rfl

/-- Witness for `pong_latency_window`: the first pong (requestTime 5,
received at 7) puts the single sample `7 - 5` into the empty window. -/
theorem pong_latency_window_witness :
    (handlePongMessage [("type", .str "pong"), ("requestTime", .num 5)] 7
        initialServiceState).latencyMeasurements = [7 - 5] :=
  (pong_latency_window [("type", .str "pong"), ("requestTime", .num 5)] 5 7
    initialServiceState (by simp [List.lookup]) (by norm_num)).1 (by decide)

/-! ## C9 -/

/-- C9.  A manual `disconnect` leaves no reconnect timer pending (its clean
close never schedules one, whatever the attempt counter), and an unclean
close with the attempt counter below the limit — with reconnection enabled,
as it is by default — schedules exactly one reconnect, with the backoff
delay for the incremented attempt counter. -/
theorem disconnect_schedules_no_reconnect (cfg : WSConfig) (st : WSState) :
    (disconnect cfg st).reconnectTimer = none ∧
    (onClose cfg true st).reconnectTimer = none ∧
    (cfg.shouldReconnect = true → st.connectionAttempts < cfg.reconnectAttempts →
      (onClose cfg false st).reconnectTimer =
        some (reconnectDelay cfg.reconnectInterval (st.connectionAttempts + 1)) ∧
      (onClose cfg false st).connectionAttempts = st.connectionAttempts + 1) := by
  refine ⟨?_, ?_, ?_⟩
  · cases h : st.socket <;> simp [disconnect, h, onClose, clearTimeouts]
  · simp [onClose, clearTimeouts]
  · intro hre hat
    constructor <;> simp [onClose, clearTimeouts, hre, hat]

/-- Witness for `disconnect_schedules_no_reconnect`: with the default
configuration, an unclean close from the initial state schedules the
first-attempt delay. -/
theorem disconnect_schedules_no_reconnect_witness :
    (onClose ⟨true, 5, 3000⟩ false initialWSState).reconnectTimer =
      some (reconnectDelay 3000 1) ∧
    (onClose ⟨true, 5, 3000⟩ false initialWSState).connectionAttempts = 1 :=
  (disconnect_schedules_no_reconnect ⟨true, 5, 3000⟩ initialWSState).2.2 rfl
    (by decide)

/-! ## C10 -/

/-- Mapping `mkExchangeData` over non-null books never throws. -/
theorem mapM_map_some (books : List OrderBook) :
    buildExchangeData (books.map some) = some (books.map mkExchangeData) := by
  induction books with
  | nil => rfl
  | cons b rest ih => simp [buildExchangeData, ih]

/-- Every exchange named in an arbitrage opportunity comes from the list it
was computed over. -/
theorem arbOpps_exchanges : ∀ (l : List ExchangeData), ∀ a ∈ arbOpps l,
    a.buyExchange ∈ l.map ExchangeData.exchange ∧
      a.sellExchange ∈ l.map ExchangeData.exchange
  | [] => by simp [arbOpps]
  | x :: rest => by
    intro a ha
    rw [arbOpps] at ha
    rcases List.mem_append.mp ha with h | h
    · obtain ⟨sub, hsub, hasub⟩ := List.mem_flatten.mp h
      obtain ⟨y, hy, rfl⟩ := List.mem_map.mp hsub
      have hx : x.exchange ∈ (x :: rest).map ExchangeData.exchange := by simp
      have hy' : y.exchange ∈ (x :: rest).map ExchangeData.exchange := by
        simp only [List.map_cons, List.mem_cons]
        exact Or.inr (List.mem_map.mpr ⟨y, hy, rfl⟩)
      unfold pairArbs at hasub
      rcases List.mem_append.mp hasub with h2 | h2 <;> split_ifs at h2 <;>
        simp only [List.mem_singleton, List.not_mem_nil] at h2 <;>
        first
        | exact absurd h2 (by simp)
        | (subst h2; exact ⟨hx, hy'⟩)
        | (subst h2; exact ⟨hy', hx⟩)
    · obtain ⟨hbuy, hsell⟩ := arbOpps_exchanges rest a h
      simp only [List.map_cons, List.mem_cons]
      exact ⟨Or.inr hbuy, Or.inr hsell⟩

/-- The `reduce` pick is an element of the reduced list. -/
theorem reduceBest_mem : ∀ (l : List ExchangeData) (best : ExchangeData),
    reduceBest best l ∈ best :: l
  | [], best => by simp [reduceBest]
  | c :: rest, best => by
    rw [reduceBest]
    have h := reduceBest_mem rest (if scoreGt c.efficiency best.efficiency then c else best)
    rcases List.mem_cons.mp h with h | h
    · rw [h]
      split_ifs <;> simp
    · exact List.mem_cons_of_mem _ (List.mem_cons_of_mem _ h)

/-- C10, counterexample.  A `null` entry in the input array makes
`compareOrderBooks` throw (`ob.Sources?.[0]` dereferences the null book,
modelled by the `none` result) instead of excluding the missing book and
returning the defined empty result. -/
theorem compareOrderBooks_null_entry_throws :
    compareOrderBooks [none, some ⟨[(1, 1)], [(2, 1)], ["A"], none⟩] = none ∧
    compareOrderBooks [none, some ⟨[(1, 1)], [(2, 1)], ["A"], none⟩] ≠
      some emptyCompareResult := by
  constructor
  · rfl
  · rw [show compareOrderBooks [none, some ⟨[(1, 1)], [(2, 1)], ["A"], none⟩] =
      (none : Option CompareResult) from rfl]
    simp

/-- C10, amended.  For an input of *non-null* books, `compareOrderBooks`
never throws; with fewer than two input books, or fewer than two books
passing the `bestBid > 0 && bestAsk > 0` filter, it returns the defined
empty result `{arbitrage: [], bestExchange: null, summary: {}}`; and in the
main case every exchange appearing in the arbitrage list, the best-exchange
pick and the summary comes from a surviving book.  (A `null` entry in the
input, by contrast, throws a `TypeError`.) -/
theorem compareOrderBooks_excludes (books : List OrderBook) :
    (∃ r, compareOrderBooks (books.map some) = some r) ∧
    (books.length < 2 → compareOrderBooks (books.map some) = some emptyCompareResult) ∧
    ((survivingExchangeData books).length < 2 →
      compareOrderBooks (books.map some) = some emptyCompareResult) ∧
    (∀ r, compareOrderBooks (books.map some) = some r →
      2 ≤ (survivingExchangeData books).length →
      (∀ a ∈ r.arbitrage,
        a.buyExchange ∈ (survivingExchangeData books).map ExchangeData.exchange ∧
        a.sellExchange ∈ (survivingExchangeData books).map ExchangeData.exchange) ∧
      (∀ e, r.bestExchange = some e →
        e ∈ (survivingExchangeData books).map ExchangeData.exchange) ∧
      (∀ s, r.summary = some s →
        s.exchanges = (survivingExchangeData books).map ExchangeData.exchange) ∧
      r.exchangeData = survivingExchangeData books) := by
  have hsurlen : (survivingExchangeData books).length ≤ books.length := by
    calc (survivingExchangeData books).length
        ≤ (books.map mkExchangeData).length := List.length_filter_le _ _
      _ = books.length := List.length_map _ _
  by_cases hlen : books.length < 2
  · have hres : compareOrderBooks (books.map some) = some emptyCompareResult := by
      unfold compareOrderBooks
      rw [if_pos (by simpa using hlen)]
    refine ⟨⟨_, hres⟩, fun _ => hres, fun _ => hres, ?_⟩
    intro r _ hsur
    omega
  · have hmap := mapM_map_some books
    by_cases hsur : (survivingExchangeData books).length < 2
    · have hres : compareOrderBooks (books.map some) = some emptyCompareResult := by
        unfold compareOrderBooks
        rw [if_neg (by simpa using hlen)]
        rw [show buildExchangeData (books.map some) =
          some (books.map mkExchangeData) from hmap]
        simp only [Option.bind_eq_bind, Option.some_bind]
        rw [if_pos (by simpa [survivingExchangeData] using hsur)]
        rfl
      refine ⟨⟨_, hres⟩, fun _ => hres, fun _ => hres, ?_⟩
      intro r _ hsur2
      omega
    · obtain ⟨x, rest, hE⟩ : ∃ x rest, survivingExchangeData books = x :: rest := by
        cases hc : survivingExchangeData books with
        | nil => rw [hc] at hsur; simp at hsur
        | cons x rest => exact ⟨x, rest, rfl⟩
      have hres : compareOrderBooks (books.map some) = some
          ⟨List.insertionSort (fun a b : ArbOpportunity => a.profitPercent ≥ b.profitPercent)
              (arbOpps (survivingExchangeData books)),
            some (reduceBest x rest).exchange,
            survivingExchangeData books,
            some
              { averageSpread := ((survivingExchangeData books).map (·.spreadPercent)).sum /
                  ((survivingExchangeData books).map (·.spreadPercent)).length
                averageMidPrice := ((survivingExchangeData books).map (·.midPrice)).sum /
                  ((survivingExchangeData books).map (·.midPrice)).length
                spreadMin := listMin ((survivingExchangeData books).map (·.spreadPercent))
                spreadMax := listMax ((survivingExchangeData books).map (·.spreadPercent))
                priceMin := listMin ((survivingExchangeData books).map (·.midPrice))
                priceMax := listMax ((survivingExchangeData books).map (·.midPrice))
                exchanges := (survivingExchangeData books).map (·.exchange) }⟩ := by
        unfold compareOrderBooks
        rw [if_neg (by simpa using hlen)]
        rw [show buildExchangeData (books.map some) =
          some (books.map mkExchangeData) from hmap]
        simp only [Option.bind_eq_bind, Option.some_bind]
        rw [if_neg (by simpa [survivingExchangeData] using hsur)]
        rw [show (books.map mkExchangeData).filter
            (fun d => decide (0 < d.bestBid ∧ 0 < d.bestAsk)) =
          survivingExchangeData books from rfl]
        rw [hE]
        rfl
      refine ⟨⟨_, hres⟩, fun h => absurd h hlen, fun h => absurd h hsur, ?_⟩
      intro r hr _
      rw [hres] at hr
      obtain rfl := Option.some_inj.mp hr
      refine ⟨?_, ?_, ?_, rfl⟩
      · intro a ha
        have := (List.mem_insertionSort _).mp ha
        exact arbOpps_exchanges _ a this
      · intro e he
        obtain rfl := Option.some_inj.mp he
        have hmem : reduceBest x rest ∈ survivingExchangeData books := by
          rw [hE]; exact reduceBest_mem rest x
        exact List.mem_map.mpr ⟨_, hmem, rfl⟩
      · intro s hs
        obtain rfl := Option.some_inj.mp hs
        rfl

/-- Witness for `compareOrderBooks_excludes`: one surviving book out of two
non-null books yields the empty result. -/
theorem compareOrderBooks_excludes_witness :
    compareOrderBooks
      [some ⟨[(1, 1)], [(2, 1)], ["A"], none⟩, some ⟨[], [], ["B"], none⟩] =
      some emptyCompareResult := by
  have h := (compareOrderBooks_excludes
    [⟨[(1, 1)], [(2, 1)], ["A"], none⟩, ⟨[], [], ["B"], none⟩]).2.2.1
  exact h (by
    norm_num [survivingExchangeData, mkExchangeData, getBestPrices, exchangeName,
      calculateQualityMetrics, calculateMarketDepth, processSide, cumulate,
      bidPricesSorted, askPricesSorted, List.insertionSort, List.orderedInsert,
      List.filter])
